import Mathlib

/-!
Verification development for the suspense-loader library
(`src/index.tsx`, together with the variant of the same module bundled in
the repository documentation file, which additionally carries a `timeout`
parameter on `getDataFromTree`).

The embedding below is a shallow model of the module:

* JavaScript values relevant to the module (the cache holds arbitrary
  JSON-serializable data, and several branches test JS truthiness) are
  modelled by `JsValue`; JSON serialize/parse round-trips are modelled as
  the identity on `JsValue`, which is exact for JSON-serializable data.
* The mutable objects `cacheMap` / `promiseMap` are association lists with
  JavaScript object semantics (`mapGet` / `mapSet` / `mapDel`).
* Promises are modelled by their settlement state (`PromiseState`); the
  synchronous part of `load()` is `loadFn`, and the later settlement of the
  in-flight loader call is a separate step (`settleLoaderResolve`,
  `loadSettleRun`), mirroring the single-threaded event-loop split between
  the executor (synchronous) and `then`-continuations (later microtasks).
* One render attempt of `SuspenseLoader` + `SuspenseWapper` is `paint`:
  it performs the cache fast path (index.tsx lines 108-116), the
  `isCSRFallback` early return, the `throw load()` suspension, and the
  marker `<script>` emission with its `isRequestData` latch.
* The server collector `getDataFromTree` is modelled by `collectLoop` over
  an explicit timeline of pending-entry arrivals and resolution times.
-/

/-- A JavaScript value as stored in the cache / passed to the loader. -/
inductive JsValue where
  | jsUndefined
  | jsNull
  | jsBool (b : Bool)
  | jsNum (n : Int)
  | jsStr (s : String)
deriving DecidableEq, Repr

/-- JS truthiness: `undefined`, `null`, `false`, `0` and the empty string are falsy. -/
def truthy : JsValue → Bool
  | .jsUndefined => false
  | .jsNull => false
  | .jsBool b => b
  | .jsNum n => n != 0
  | .jsStr s => s != ""

/-- JS `a || b`. -/
def jsOr (a b : JsValue) : JsValue := if truthy a then a else b

/-- A JS object used as a string-keyed map. -/
abbrev JsMap (α : Type) := List (String × α)

/-- `m[k]`, `undefined` (`none`) when absent. -/
def mapGet {α : Type} : JsMap α → String → Option α
  | [], _ => none
  | (k, v) :: rest, k0 => if k = k0 then some v else mapGet rest k0

/-- `m[k] = v`: replace in place, or append a fresh key. -/
def mapSet {α : Type} : JsMap α → String → α → JsMap α
  | [], k0, v0 => [(k0, v0)]
  | (k, v) :: rest, k0, v0 =>
    if k = k0 then (k0, v0) :: rest else (k, v) :: mapSet rest k0 v0

/-- `delete m[k]`. -/
def mapDel {α : Type} : JsMap α → String → JsMap α
  | [], _ => []
  | (k, v) :: rest, k0 => if k = k0 then mapDel rest k0 else (k, v) :: mapDel rest k0

/-- `m[k]` read as a JS value (absent keys read as `undefined`). -/
def getJs (m : JsMap JsValue) (k : String) : JsValue := (mapGet m k).getD .jsUndefined

/-- The `type` prop of `SuspenseLoader`. -/
inductive SuspenseType where
  | streaming
  | ssr
  | csr
deriving DecidableEq, Repr

/-- Settlement state of a promise. -/
inductive PromiseState where
  | pending
  | fulfilled (v : JsValue)
  | rejected (e : JsValue)
deriving DecidableEq, Repr

/-- One `promiseMap` entry: `{ promise, streaming: type === 'streaming' }`.
The stored promise is represented by its settlement state. -/
structure PendingEntry where
  streaming : Bool
  state : PromiseState
deriving DecidableEq, Repr

/-- The Tree Context pair `{ cacheMap, promiseMap }`. -/
structure TreeState where
  cacheMap : JsMap JsValue
  promiseMap : JsMap PendingEntry
deriving DecidableEq, Repr

/-- The per-instance `property` ref (`SuspensePropeatyType`). -/
structure Property where
  value : JsValue := .jsUndefined
  isInit : Bool := false
  isSuspenseLoad : Bool := false
  loaderValue : JsValue := .jsUndefined
deriving DecidableEq, Repr

/-- The props of one `SuspenseLoader` instance that the load path reads:
`name`, the `loaderValue` prop (configured default argument), and `type`. -/
structure CoordProps where
  name : String
  defaultLoaderValue : JsValue
  type_ : SuspenseType
deriving DecidableEq, Repr

/-- Ambient execution facts: `isServer`, the client DOM (element id to the
parsed `{ value }.value` of the embedded marker body), and the module-level
`cacheSrcMap` snapshot. -/
structure Env where
  isServer : Bool
  doc : JsMap JsValue
  cacheSrcMap : JsMap JsValue
deriving DecidableEq, Repr

/-- `idName = '#__NEXT_DATA__STREAM__' + name`. -/
def idNameOf (name : String) : String := "#__NEXT_DATA__STREAM__" ++ name

/-- Observable facts about one synchronous run of `load()`. -/
structure LoadInfo where
  invokedLoader : Bool
  loaderArg : JsValue
  usedMarker : Bool
  reusedPending : Bool
  returnedPromise : PromiseState
deriving DecidableEq, Repr

/-- The synchronous part of `load()` (index.tsx lines 117-143):
on the server an existing `promiseMap[name]` entry (whose `promise` field is
a real promise object, hence truthy) is reused; otherwise a new promise is
created — on the client a matching marker element resolves it at once
(setting `isSuspenseLoad`), else the external loader is invoked with
`property.loaderValue || loaderValue`.  On the server the (possibly reused)
promise is re-registered under `name` with `streaming: type === 'streaming'`. -/
def loadFn (isSrv : Bool) (doc : JsMap JsValue) (p : CoordProps) (prop : Property)
    (s : TreeState) : Property × TreeState × LoadInfo :=
  if isSrv then
    match mapGet s.promiseMap p.name with
    | some e =>
      let s1 : TreeState :=
        { s with promiseMap :=
            mapSet s.promiseMap p.name ⟨decide (p.type_ = .streaming), e.state⟩ }
      (prop, s1, ⟨false, .jsUndefined, false, true, e.state⟩)
    | none =>
      let arg := jsOr prop.loaderValue p.defaultLoaderValue
      let s1 : TreeState :=
        { s with promiseMap :=
            mapSet s.promiseMap p.name ⟨decide (p.type_ = .streaming), .pending⟩ }
      (prop, s1, ⟨true, arg, false, false, .pending⟩)
  else
    match mapGet doc (idNameOf p.name) with
    | some mv => ({ prop with isSuspenseLoad := true }, s, ⟨false, .jsUndefined, true, false, .fulfilled mv⟩)
    | none =>
      let arg := jsOr prop.loaderValue p.defaultLoaderValue
      (prop, s, ⟨true, arg, false, false, .pending⟩)

/-- The `promise.then` continuation attached by `load()` (lines 134-139):
mark the record initialized, store the value, mirror it into `cacheMap`. -/
def applyLoadSettle (n : String) (v : JsValue) (prop : Property) (s : TreeState) :
    Property × TreeState :=
  ({ prop with isInit := true, value := v }, { s with cacheMap := mapSet s.cacheMap n v })

/-- The registered `promiseMap[n]` entry holds the same promise object, so its
observable state changes when that promise settles. -/
def setPromiseState (s : TreeState) (n : String) (ps : PromiseState) : TreeState :=
  match mapGet s.promiseMap n with
  | some e => { s with promiseMap := mapSet s.promiseMap n ⟨e.streaming, ps⟩ }
  | none => s

/-- Settlement of a marker-resolved load: the executor already set
`isSuspenseLoad`; only the `then` continuation remains. -/
def settleMarkerResolve (n : String) (v : JsValue) (prop : Property) (s : TreeState) :
    Property × TreeState :=
  applyLoadSettle n v prop s

/-- Settlement of a loader-resolved load: the inner `then` first clears
`isSuspenseLoad` and fulfills the outer promise (visible through the
registered server entry), then the outer continuation runs. -/
def settleLoaderResolve (isSrv : Bool) (n : String) (v : JsValue) (prop : Property)
    (s : TreeState) : Property × TreeState :=
  let prop1 := { prop with isSuspenseLoad := false }
  let s1 := if isSrv then setPromiseState s n (.fulfilled v) else s
  applyLoadSettle n v prop1 s1

/-- State of the outer promise created by the loader branch of the executor:
`resolve` is called only from the fulfillment handler, so a rejected loader
leaves the outer promise forever pending. -/
def loaderBranchOuter : PromiseState → PromiseState
  | .fulfilled v => .fulfilled v
  | .rejected _ => .pending
  | .pending => .pending

/-- State of the derived promise `loader(arg).then(onFulfilled)`: with no
rejection handler a rejection passes through to the derived promise. -/
def loaderBranchDerived : PromiseState → PromiseState
  | .fulfilled v => .fulfilled v
  | .rejected e => .rejected e
  | .pending => .pending

/-- A rejected promise that nothing holds or handles is an unhandled rejection. -/
def isUnhandledRejection : PromiseState → Bool
  | .rejected _ => true
  | _ => false

/-- Combined effect of the loader promise settling in state `ls`:
the resulting record, tree tables, the state of the promise `load()`
returned, and whether an unhandled rejection was produced. -/
def loadSettleRun (isSrv : Bool) (n : String) (ls : PromiseState) (prop : Property)
    (s : TreeState) : Property × TreeState × PromiseState × Bool :=
  let outer := loaderBranchOuter ls
  let unh := isUnhandledRejection (loaderBranchDerived ls)
  match outer with
  | .fulfilled v =>
    let r := settleLoaderResolve isSrv n v prop s
    (r.1, r.2, .fulfilled v, unh)
  | o => (prop, s, o, unh)

/-- The first-evaluation fast path (index.tsx lines 108-116): while the
record is uninitialized, a *truthy* `cacheMap[name]` is adopted. -/
def tryCacheAdopt (p : CoordProps) (prop : Property) (s : TreeState) : Property :=
  if prop.isInit then prop
  else
    let v := getJs s.cacheMap p.name
    if truthy v then { prop with value := v, isInit := true, isSuspenseLoad := false } else prop

/-- Per-instance render-relevant state: the `property` ref, the shared tree
tables, the `isCSRFallback` state cell, and the wrapper's `isRequestData`
marker latch (`none` while no wrapper content has mounted: a suspended
wrapper throws before its `useState` runs, and unmounting discards it). -/
structure PaintState where
  prop : Property
  tree : TreeState
  isCSRFallback : Bool
  isRequestData : Option Bool
deriving DecidableEq, Repr

/-- What one render attempt produced. -/
inductive RenderOut where
  | fallbackOut
  | suspendedOut
  | contentOut (v : JsValue) (marker : Bool)
deriving DecidableEq, Repr

/-- One render attempt of `SuspenseLoader` (+ `SuspenseWapper`), with its
mount effects committed.  The body always runs the cache fast path first;
`isCSRFallback` then short-circuits to the fallback (its reset effect runs
on the client only — effects never run during server rendering, which is
why a csr coordinator stays on its fallback server-side).  Otherwise an
uninitialized record throws `load()`; an initialized one renders content,
emitting the marker iff the latch allows:  at first content mount the latch
initializes to `(isSuspenseLoad || isServer) && streaming` where the
`streaming` prop is `!cacheSrcMap[name]`, and the mount effect disarms it
(the stored cell is only ever read again on the client, where the effect has
run, so it is stored disarmed). -/
def paint (env : Env) (p : CoordProps) (st : PaintState) :
    PaintState × RenderOut × Option LoadInfo :=
  let prop1 := tryCacheAdopt p st.prop st.tree
  if st.isCSRFallback then
    ({ st with prop := prop1, isCSRFallback := env.isServer }, .fallbackOut, none)
  else if prop1.isInit then
    match st.isRequestData with
    | none =>
      let initReq := (prop1.isSuspenseLoad || env.isServer) && !truthy (getJs env.cacheSrcMap p.name)
      ({ st with prop := prop1, isRequestData := some false }, .contentOut prop1.value initReq, none)
    | some b =>
      ({ st with prop := prop1 }, .contentOut prop1.value b, none)
  else
    let r := loadFn env.isServer env.doc p prop1 st.tree
    ({ st with prop := r.1, tree := r.2.1 }, .suspendedOut, some r.2.2)

/-- `loadDispatch` (index.tsx lines 144-155): synchronously clear the record,
store the argument override, delete both table entries, hide the wrapper on
the client (`setVisible(isServer || false)`, which unmounts it and discards
its latch), and force a re-render (`reload({})`, reported as `true`). -/
def loadDispatchFn (env : Env) (p : CoordProps) (arg : JsValue) (st : PaintState) :
    PaintState × Bool :=
  let prop1 : Property :=
    { value := .jsUndefined, isInit := false, isSuspenseLoad := st.prop.isSuspenseLoad,
      loaderValue := arg }
  let tree1 : TreeState :=
    { cacheMap := mapDel st.tree.cacheMap p.name, promiseMap := mapDel st.tree.promiseMap p.name }
  let latch1 := if env.isServer then st.isRequestData else none
  ({ prop := prop1, tree := tree1, isCSRFallback := st.isCSRFallback,
     isRequestData := latch1 }, true)

/-- The `useRef({})` initial record. -/
def freshProperty : Property := {}

/-- A freshly mounted instance: empty `property` ref, `isCSRFallback`
initialized to `type === 'csr'`, no wrapper latch yet. -/
def freshPaintState (p : CoordProps) (tree : TreeState) : PaintState :=
  { prop := freshProperty, tree := tree, isCSRFallback := decide (p.type_ = .csr),
    isRequestData := none }

/-- Mount a fresh coordinator over the shared tables and run its first render
attempt; report the updated tables and whether the external loader ran. -/
def mountOnce (env : Env) (p : CoordProps) (tree : TreeState) : TreeState × Bool :=
  let r := paint env p (freshPaintState p tree)
  (r.1.tree, (r.2.2.map (fun i => i.invokedLoader)).getD false)

/-- Fold step: mount one more coordinator, accumulating loader invocations. -/
def mountStep (env : Env) (acc : TreeState × Nat) (p : CoordProps) : TreeState × Nat :=
  let r := mountOnce env p acc.1
  (r.1, acc.2 + (if r.2 then 1 else 0))

/-- Mount a list of fresh coordinators in sequence over one Tree Context
scope, counting external loader invocations. -/
def mountRun (env : Env) (ps : List CoordProps) (tree : TreeState) : TreeState × Nat :=
  ps.foldl (mountStep env) (tree, 0)

/-- The module-level state touched by `setSuspenseTreeContext`:
`globalTreeContext` and `cacheSrcMap`. -/
structure GlobalBridge where
  gPromiseMap : JsMap PendingEntry
  gCacheMap : JsMap JsValue
  gCacheSrcMap : JsMap JsValue
deriving DecidableEq, Repr

/-- `Object.assign(target, source)`. -/
def objAssign {α : Type} (target source : JsMap α) : JsMap α :=
  source.foldl (fun acc kv => mapSet acc kv.1 kv.2) target

/-- `setSuspenseTreeContext` (index.tsx lines 191-197): no-op without a
context; otherwise `Object.assign` both tables into the global context and
set `cacheSrcMap = { ...cacheMap }` — a copy of the *given* cache argument. -/
def setSuspenseTreeContextFn (g : GlobalBridge)
    (ctx : Option (JsMap PendingEntry × JsMap JsValue)) : GlobalBridge :=
  match ctx with
  | none => g
  | some pc =>
    { gPromiseMap := objAssign g.gPromiseMap pc.1
      gCacheMap := objAssign g.gCacheMap pc.2
      gCacheSrcMap := pc.2 }

/-- One pending operation as the collector sees it: its streaming flag
(`type === 'streaming'`), the absolute time at which the underlying loader
settles (`none`: never), and the value it resolves with. -/
structure POp where
  streaming : Bool
  resolveAt : Option Nat
  value : JsValue
deriving DecidableEq, Repr

/-- One registration performed by the rendering pass: at `arriveAt` the tree
engine reveals a coordinator that registers `name` in `promiseMap`. -/
structure Arrival where
  name : String
  arriveAt : Nat
  op : POp
deriving DecidableEq, Repr

/-- The contents of the collector's `promiseMap` at time `t`. -/
def arrivedBy (timeline : List Arrival) (t : Nat) : List Arrival :=
  timeline.filter (fun a => decide (a.arriveAt ≤ t))

/-- The entries one `Promise.all` waits on:
`.filter((v) => !isStreaming || !v.streaming)`. -/
def awaitedEntries (isStreaming : Bool) (l : List Arrival) : List Arrival :=
  l.filter (fun a => !isStreaming || !a.op.streaming)

/-- The time at which `Promise.all` over `l`, started at `t`, settles
(`none`: some entry never settles). An already-settled promise contributes
no extra wait. -/
def settleTimeFrom (t : Nat) (l : List Arrival) : Option Nat :=
  l.foldl (fun acc a =>
    match acc, a.op.resolveAt with
    | some m, some r => some (max m r)
    | _, _ => none) (some t)

/-- Outcome of `Promise.race([Promise.all(...), promiseTimeout])`. -/
inductive RoundOutcome where
  | settledAt (t : Nat)
  | timeoutAt (t : Nat)
  | hang
deriving DecidableEq, Repr

/-- The race: without a timeout the timer promise never settles
(`timeout && setTimeout(...)`); with one, whichever side settles first wins
(`Promise.all`, listed first, wins exact ties). The timer resolves with
`undefined`, which is what the loop's `if (!result) break` detects. -/
def raceRound (timeoutAbs : Option Nat) (st : Option Nat) : RoundOutcome :=
  match timeoutAbs, st with
  | none, none => .hang
  | none, some ta => .settledAt ta
  | some tm, none => .timeoutAt tm
  | some tm, some ta => if ta ≤ tm then .settledAt ta else .timeoutAt tm

/-- How the collector loop ended. -/
inductive CollectExit where
  | stableAt (t : Nat)
  | timedOutAt (t : Nat)
  | hung
  | fuelOut
deriving DecidableEq, Repr

/-- The `for (;;)` loop of `getDataFromTree`: await the race; a falsy result
(the timer) breaks out at once; otherwise compare `Object.keys(promiseMap).length`
against the previous count and stop when unchanged.  `fuel` bounds the
number of iterations so the model is total. -/
def collectLoop (timeline : List Arrival) (isStreaming : Bool) (timeoutAbs : Option Nat) :
    Nat → Nat → Nat → CollectExit
  | 0, _, _ => .fuelOut
  | Nat.succ fuel, t, len =>
    match raceRound timeoutAbs (settleTimeFrom t (awaitedEntries isStreaming (arrivedBy timeline t))) with
    | .hang => .hung
    | .timeoutAt tm => .timedOutAt tm
    | .settledAt ta =>
      if (arrivedBy timeline ta).length = len then .stableAt ta
      else collectLoop timeline isStreaming timeoutAbs fuel ta (arrivedBy timeline ta).length

/-- `getDataFromTree` after the render kick-off: a fresh scope, the initial
count taken at time `0`, then the loop. -/
def getDataFromTreeModel (timeline : List Arrival) (isStreaming : Bool)
    (timeoutAbs : Option Nat) (fuel : Nat) : CollectExit :=
  collectLoop timeline isStreaming timeoutAbs fuel 0 (arrivedBy timeline 0).length

/-- Names registered in the returned `promiseMap` read at time `t`. -/
def promiseNamesAt (timeline : List Arrival) (t : Nat) : List String :=
  (arrivedBy timeline t).map (fun a => a.name)

/-- The `cacheMap` read at time `t`: the `then` continuation of each load
mirrors its value into the cache at the moment it resolves. -/
def cacheMapAt (timeline : List Arrival) (t : Nat) : JsMap JsValue :=
  (timeline.filter (fun a =>
    match a.op.resolveAt with
    | some r => decide (r ≤ t)
    | none => false)).map (fun a => (a.name, a.op.value))

theorem mapGet_mapSet_self {α : Type} (m : JsMap α) (k : String) (v : α) :
    mapGet (mapSet m k v) k = some v := by
  induction m with
  | nil => simp [mapSet, mapGet]
  | cons kv rest ih =>
    by_cases h : kv.1 = k
    · simp [mapSet, mapGet, h]
    · simp [mapSet, mapGet, h, ih]

theorem mapGet_mapSet_ne {α : Type} (m : JsMap α) (k k0 : String) (v : α) (h : k0 ≠ k) :
    mapGet (mapSet m k v) k0 = mapGet m k0 := by
  have hne : ¬ k = k0 := fun hh => h (Eq.symm hh)
  induction m with
  | nil => simp [mapSet, mapGet, hne]
  | cons kv rest ih =>
    by_cases hk : kv.1 = k
    · simp [mapSet, mapGet, hk, hne]
    · simp [mapSet, mapGet, hk, ih]

theorem mapGet_mapDel_self {α : Type} (m : JsMap α) (k : String) :
    mapGet (mapDel m k) k = none := by
  induction m with
  | nil => simp [mapDel, mapGet]
  | cons kv rest ih =>
    by_cases h : kv.1 = k
    · simp [mapDel, h, ih]
    · simp [mapDel, mapGet, h, ih]

theorem mapGet_mapDel_ne {α : Type} (m : JsMap α) (k k0 : String) (h : k0 ≠ k) :
    mapGet (mapDel m k) k0 = mapGet m k0 := by
  have hne : ¬ k = k0 := fun hh => h (Eq.symm hh)
  induction m with
  | nil => simp [mapDel]
  | cons kv rest ih =>
    by_cases hk : kv.1 = k
    · simp [mapDel, hk, ih, mapGet, hne]
    · simp [mapDel, mapGet, hk, ih]

theorem mapGet_objAssign_none {α : Type} (target source : JsMap α) (k : String)
    (h : mapGet source k = none) : mapGet (objAssign target source) k = mapGet target k := by
  induction source generalizing target with
  | nil => simp [objAssign]
  | cons kv rest ih =>
    have hk : ¬ kv.1 = k := by
      intro hh
      simp [mapGet, hh] at h
    have hr : mapGet rest k = none := by
      simpa [mapGet, hk] using h
    have step : objAssign target (kv :: rest) = objAssign (mapSet target kv.1 kv.2) rest := by
      simp [objAssign, List.foldl_cons]
    rw [step, ih _ hr, mapGet_mapSet_ne _ _ _ _ (fun hh => hk hh.symm)]

theorem arrivedBy_sublist (timeline : List Arrival) {t t1 : Nat} (h : t ≤ t1) :
    (arrivedBy timeline t).Sublist (arrivedBy timeline t1) := by
  induction timeline with
  | nil => simp [arrivedBy]
  | cons a rest ih =>
    by_cases ha : a.arriveAt ≤ t
    · have ha1 : a.arriveAt ≤ t1 := le_trans ha h
      simpa [arrivedBy, ha, ha1] using List.Sublist.cons₂ a ih
    · by_cases ha1 : a.arriveAt ≤ t1
      · simpa [arrivedBy, ha, ha1] using List.Sublist.cons a ih
      · simpa [arrivedBy, ha, ha1] using ih

theorem arrivedBy_eq_of_length (timeline : List Arrival) {t t1 : Nat} (h : t ≤ t1)
    (hlen : (arrivedBy timeline t1).length = (arrivedBy timeline t).length) :
    arrivedBy timeline t = arrivedBy timeline t1 :=
  (arrivedBy_sublist timeline h).eq_of_length hlen.symm

theorem settleFold_none (l : List Arrival) :
    l.foldl (fun acc a =>
      match acc, a.op.resolveAt with
      | some m, some r => some (max m r)
      | _, _ => none) none = none := by
  induction l with
  | nil => rfl
  | cons a rest ih => simpa using ih

theorem settleFold_le (l : List Arrival) :
    ∀ b ta, l.foldl (fun acc a =>
      match acc, a.op.resolveAt with
      | some m, some r => some (max m r)
      | _, _ => none) (some b) = some ta → b ≤ ta := by
  induction l with
  | nil =>
    intro b ta h
    simp at h
    omega
  | cons a rest ih =>
    intro b ta h
    cases hr : a.op.resolveAt with
    | none =>
      rw [List.foldl_cons] at h
      simp [hr] at h
      rw [settleFold_none] at h
      exact absurd h (by simp)
    | some r =>
      rw [List.foldl_cons] at h
      simp [hr] at h
      have := ih (max b r) ta h
      omega

theorem settleTimeFrom_le {t ta : Nat} {l : List Arrival}
    (h : settleTimeFrom t l = some ta) : t ≤ ta :=
  settleFold_le l t ta h

theorem raceRound_settled_src {timeoutAbs : Option Nat} {st : Option Nat} {ta : Nat}
    (h : raceRound timeoutAbs st = .settledAt ta) : st = some ta := by
  cases timeoutAbs with
  | none =>
    cases st with
    | none => simp [raceRound] at h
    | some x => simpa [raceRound] using h
  | some tm =>
    cases st with
    | none => simp [raceRound] at h
    | some x =>
      by_cases hx : x ≤ tm
      · simpa [raceRound, hx] using h
      · simp [raceRound, hx] at h

theorem raceRound_timeout_src {timeoutAbs : Option Nat} {st : Option Nat} {tm : Nat}
    (h : raceRound timeoutAbs st = .timeoutAt tm) : timeoutAbs = some tm := by
  cases timeoutAbs with
  | none =>
    cases st with
    | none => simp [raceRound] at h
    | some x => simp [raceRound] at h
  | some t0 =>
    cases st with
    | none => simpa [raceRound] using h
    | some x =>
      by_cases hx : x ≤ t0
      · simp [raceRound, hx] at h
      · simpa [raceRound, hx] using h

theorem mountOnce_noinvoke_of_entry (env : Env) (p : CoordProps) (tree : TreeState)
    (hs : env.isServer = true) (he : (mapGet tree.promiseMap p.name).isSome) :
    (mountOnce env p tree).2 = false := by
  obtain ⟨e, he1⟩ := Option.isSome_iff_exists.mp he
  by_cases hcsr : p.type_ = SuspenseType.csr
  · simp [mountOnce, paint, freshPaintState, hcsr]
  · cases hinit : (tryCacheAdopt p freshProperty tree).isInit
    · simp [mountOnce, paint, freshPaintState, hcsr, hinit, loadFn, hs, he1]
    · simp [mountOnce, paint, freshPaintState, hcsr, hinit]

theorem mountOnce_entry_preserved (env : Env) (p : CoordProps) (tree : TreeState)
    (hs : env.isServer = true) (he : (mapGet tree.promiseMap p.name).isSome) :
    (mapGet (mountOnce env p tree).1.promiseMap p.name).isSome := by
  obtain ⟨e, he1⟩ := Option.isSome_iff_exists.mp he
  by_cases hcsr : p.type_ = SuspenseType.csr
  · simpa [mountOnce, paint, freshPaintState, hcsr] using he
  · cases hinit : (tryCacheAdopt p freshProperty tree).isInit
    · simp [mountOnce, paint, freshPaintState, hcsr, hinit, loadFn, hs, he1,
        mapGet_mapSet_self]
    · simpa [mountOnce, paint, freshPaintState, hcsr, hinit] using he

theorem mountOnce_invoked_entry (env : Env) (p : CoordProps) (tree : TreeState)
    (hs : env.isServer = true) (hi : (mountOnce env p tree).2 = true) :
    (mapGet (mountOnce env p tree).1.promiseMap p.name).isSome := by
  by_cases hcsr : p.type_ = SuspenseType.csr
  · simp [mountOnce, paint, freshPaintState, hcsr] at hi
  · cases hinit : (tryCacheAdopt p freshProperty tree).isInit
    · cases hpm : mapGet tree.promiseMap p.name with
      | some e =>
        simp [mountOnce, paint, freshPaintState, hcsr, hinit, loadFn, hs, hpm,
          mapGet_mapSet_self]
      | none =>
        simp [mountOnce, paint, freshPaintState, hcsr, hinit, loadFn, hs, hpm,
          mapGet_mapSet_self]
    · simp [mountOnce, paint, freshPaintState, hcsr, hinit] at hi

theorem mountRunAux (env : Env) (n : String) :
    ∀ (ps : List CoordProps) (tree : TreeState) (c : Nat),
      env.isServer = true → (∀ q ∈ ps, q.name = n) →
      c ≤ 1 → (c = 1 → (mapGet tree.promiseMap n).isSome) →
      (ps.foldl (mountStep env) (tree, c)).2 ≤ 1 := by
  intro ps
  induction ps with
  | nil =>
    intro tree c _ _ hc _
    simpa using hc
  | cons p rest ih =>
    intro tree c hs hn hc hinv
    rw [List.foldl_cons]
    have hpn : p.name = n := hn p (by simp)
    have hstep : mountStep env (tree, c) p =
        ((mountOnce env p tree).1, c + (if (mountOnce env p tree).2 then 1 else 0)) := rfl
    rw [hstep]
    cases hb : (mountOnce env p tree).2
    · have hz : (if false = true then 1 else 0) = 0 := by decide
      rw [hz]
      apply ih _ (c + 0) hs (fun q hq => hn q (List.mem_cons_of_mem _ hq))
      · omega
      · intro hc1
        have : c = 1 := by omega
        have hsome : (mapGet tree.promiseMap n).isSome := hinv this
        have := mountOnce_entry_preserved env p tree hs (by rwa [hpn])
        rwa [hpn] at this
    · have hc0 : c = 0 := by
        rcases Nat.le_one_iff_eq_zero_or_eq_one.mp hc with h0 | h1
        · exact h0
        · exfalso
          have hsome : (mapGet tree.promiseMap n).isSome := hinv h1
          have := mountOnce_noinvoke_of_entry env p tree hs (by rwa [hpn])
          rw [this] at hb
          exact Bool.false_ne_true hb
      subst hc0
      have ho : (if true = true then 1 else 0) = 1 := by decide
      rw [ho]
      apply ih _ (0 + 1) hs (fun q hq => hn q (List.mem_cons_of_mem _ hq))
      · omega
      · intro _
        have := mountOnce_invoked_entry env p tree hs hb
        rwa [hpn] at this

theorem truthyUndefined : truthy .jsUndefined = false := rfl

theorem jsOrUndefined (b : JsValue) : jsOr .jsUndefined b = b := rfl

/-- C1 (amended): within one server-rendering Tree Context scope, at most one
external loader invocation occurs for a name `n`, however many coordinators
mount with that name while the load is pending: the first load registers the
Pending Entry and every later server-side `load()` reuses it (`isServer &&
promiseMap[name]?.promise`), while an already-populated cache is adopted by
the fast path.  (The de-duplication is server-only: the reuse condition is
gated on `isServer`, see the client counterexample.) -/
theorem c1_server_dedup_single_loader_invocation (env : Env) (ps : List CoordProps)
    (n : String) (tree : TreeState) (hs : env.isServer = true)
    (hn : ∀ q ∈ ps, q.name = n) :
    (mountRun env ps tree).2 ≤ 1 :=
  mountRunAux env n ps tree 0 hs hn (by omega) (by omega)

/-- Witness for C1: three coordinators of assorted modes mounting the name
"news" on the server perform at most one loader call. -/
theorem c1_server_dedup_witness :
    (mountRun ⟨true, [], []⟩
      [⟨"news", .jsUndefined, .streaming⟩, ⟨"news", .jsUndefined, .ssr⟩, ⟨"news", .jsNum 3, .streaming⟩]
      ⟨[], []⟩).2 ≤ 1 :=
  c1_server_dedup_single_loader_invocation ⟨true, [], []⟩
    [⟨"news", .jsUndefined, .streaming⟩, ⟨"news", .jsUndefined, .ssr⟩, ⟨"news", .jsNum 3, .streaming⟩]
    "news" ⟨[], []⟩ rfl (by decide)

/-- Counterexample to C1 as stated: in the client-process Tree Context scope
(`isServer = false`, no marker, nothing cached) two coordinators mounting
the same name while the first load is pending invoke the external loader
once each — two invocations for one name in one scope, because the
Pending-Entry reuse in `load()` is conditioned on `isServer`. -/
theorem c1_client_dual_invocation_counterexample :
    (mountRun ⟨false, [], []⟩
      [⟨"news", .jsUndefined, .streaming⟩, ⟨"news", .jsUndefined, .streaming⟩] ⟨[], []⟩).2 = 2 := by
  decide

/-- C2: a value resolved server-side and embedded as a Data Marker under id
`"#__NEXT_DATA__STREAM__" + name` is consumed by a client coordinator
mounting the same name: its load resolves directly from the marker without
invoking the external loader, the record hydrates to the server value
(marked `isSuspenseLoad`, the hydrated-from-marker flag), the value is
mirrored into the cache, and the next render shows that value. -/
theorem c2_marker_roundtrip_hydration (v d : JsValue) (n : String) (ty : SuspenseType)
    (doc src : JsMap JsValue) (tree : TreeState)
    (hdoc : mapGet doc (idNameOf n) = some v)
    (hcache : mapGet tree.cacheMap n = none) :
    let env : Env := ⟨false, doc, src⟩
    let p : CoordProps := ⟨n, d, ty⟩
    let st0 : PaintState := ⟨freshProperty, tree, false, none⟩
    let r1 := paint env p st0
    let s2 := settleMarkerResolve n v r1.1.prop r1.1.tree
    let r2 := paint env p ⟨s2.1, s2.2, false, none⟩
    r1.2.1 = RenderOut.suspendedOut ∧
    r1.2.2 = some ⟨false, .jsUndefined, true, false, .fulfilled v⟩ ∧
    s2.1.value = v ∧ s2.1.isInit = true ∧ s2.1.isSuspenseLoad = true ∧
    mapGet s2.2.cacheMap n = some v ∧
    r2.2.1 = RenderOut.contentOut v (!truthy (getJs src n)) ∧ r2.2.2 = none := by
  simp [paint, tryCacheAdopt, freshProperty, loadFn, settleMarkerResolve,
    applyLoadSettle, getJs, truthy, hdoc, hcache, mapGet_mapSet_self]

/-- Witness for C2 at the value 7 under the name "a". -/
theorem c2_marker_roundtrip_witness :
    let env : Env := ⟨false, [(idNameOf "a", .jsNum 7)], []⟩
    let p : CoordProps := ⟨"a", .jsUndefined, .streaming⟩
    let st0 : PaintState := ⟨freshProperty, ⟨[], []⟩, false, none⟩
    let r1 := paint env p st0
    let s2 := settleMarkerResolve "a" (.jsNum 7) r1.1.prop r1.1.tree
    let r2 := paint env p ⟨s2.1, s2.2, false, none⟩
    r1.2.1 = RenderOut.suspendedOut ∧
    r1.2.2 = some ⟨false, .jsUndefined, true, false, .fulfilled (.jsNum 7)⟩ ∧
    s2.1.value = .jsNum 7 ∧ s2.1.isInit = true ∧ s2.1.isSuspenseLoad = true ∧
    mapGet s2.2.cacheMap "a" = some (.jsNum 7) ∧
    r2.2.1 = RenderOut.contentOut (.jsNum 7) (!truthy (getJs [] "a")) ∧ r2.2.2 = none :=
  c2_marker_roundtrip_hydration (.jsNum 7) .jsUndefined "a" .streaming
    [(idNameOf "a", .jsNum 7)] [] ⟨[], []⟩ (by decide) rfl

/-- Counterexample to C3 as stated: a coordinator of type csr whose name is
pre-seeded in the cache with the (truthy) value 5 adopts that value during
its very first render — the cache fast path runs before the csr early
return and is not gated on the mode — so it renders the fallback once,
then renders the cached 5, and the external loader is never invoked. -/
theorem c3_csr_adopts_seeded_cache_counterexample :
    let env : Env := ⟨false, [], []⟩
    let p : CoordProps := ⟨"n", .jsUndefined, .csr⟩
    let r1 := paint env p (freshPaintState p ⟨[("n", .jsNum 5)], []⟩)
    let r2 := paint env p r1.1
    r1.2.1 = RenderOut.fallbackOut ∧ r1.2.2 = none ∧
    r1.1.prop.isInit = true ∧ r1.1.prop.value = .jsNum 5 ∧
    r2.2.1 = RenderOut.contentOut (.jsNum 5) false ∧ r2.2.2 = none := by
  decide

/-- C3 (amended): a csr coordinator renders the fallback for its first
client paint; when the pre-seeded cache holds no truthy value for its name
it stays uninitialized through that paint and then invokes the external
loader exactly once (the second paint suspends with one loader call using
the configured default argument, and after settlement the content renders
with no further load); when the cache value is truthy the coordinator
adopts it during the first paint and never invokes the loader. -/
theorem c3_csr_first_paint_fallback_then_single_load (n : String) (d v : JsValue)
    (doc src : JsMap JsValue) (tree : TreeState)
    (hm : mapGet doc (idNameOf n) = none) :
    let env : Env := ⟨false, doc, src⟩
    let p : CoordProps := ⟨n, d, .csr⟩
    let r1 := paint env p (freshPaintState p tree)
    let r2 := paint env p r1.1
    let s3 := settleLoaderResolve false n v r2.1.prop r2.1.tree
    let r3 := paint env p ⟨s3.1, s3.2, false, none⟩
    (truthy (getJs tree.cacheMap n) = false →
      (r1.2.1 = RenderOut.fallbackOut ∧ r1.2.2 = none ∧ r1.1.prop.isInit = false) ∧
      (r2.2.1 = RenderOut.suspendedOut ∧
        r2.2.2 = some ⟨true, d, false, false, .pending⟩) ∧
      (r3.2.1 = RenderOut.contentOut v false ∧ r3.2.2 = none)) ∧
    (truthy (getJs tree.cacheMap n) = true →
      (r1.2.1 = RenderOut.fallbackOut ∧ r1.2.2 = none ∧
        r1.1.prop.isInit = true ∧ r1.1.prop.value = getJs tree.cacheMap n) ∧
      (r2.2.1 = RenderOut.contentOut (getJs tree.cacheMap n) false ∧ r2.2.2 = none)) := by
  constructor
  · intro hA
    simp [paint, freshPaintState, tryCacheAdopt, loadFn, settleLoaderResolve,
      applyLoadSettle, setPromiseState, freshProperty, hm, hA, jsOrUndefined, truthyUndefined]
  · intro hB
    simp [paint, freshPaintState, tryCacheAdopt, loadFn, freshProperty, hm, hB]

/-- Witness for C3 at an empty cache: fallback first, then exactly one
loader call with the default argument 1, then the resolved content. -/
theorem c3_csr_witness :
    let env : Env := ⟨false, [], []⟩
    let p : CoordProps := ⟨"n", .jsNum 1, .csr⟩
    let r1 := paint env p (freshPaintState p ⟨[], []⟩)
    let r2 := paint env p r1.1
    let s3 := settleLoaderResolve false "n" (.jsStr "ok") r2.1.prop r2.1.tree
    let r3 := paint env p ⟨s3.1, s3.2, false, none⟩
    (r1.2.1 = RenderOut.fallbackOut ∧ r1.2.2 = none ∧ r1.1.prop.isInit = false) ∧
    (r2.2.1 = RenderOut.suspendedOut ∧
      r2.2.2 = some ⟨true, .jsNum 1, false, false, .pending⟩) ∧
    (r3.2.1 = RenderOut.contentOut (.jsStr "ok") false ∧ r3.2.2 = none) :=
  (c3_csr_first_paint_fallback_then_single_load "n" (.jsNum 1) (.jsStr "ok")
    [] [] ⟨[], []⟩ rfl).1 rfl

/-- Counterexample to C4 as stated: on the server, after a load for "a" is
triggered and then resolves with 1, the Cache Entry is populated and yet
the Pending Entry for "a" is still present in the Pending-Load Table — the
resolution continuation (index.tsx lines 134-139) never deletes it. -/
theorem c4_pending_entry_persists_counterexample :
    let p : CoordProps := ⟨"a", .jsUndefined, .streaming⟩
    let r := loadFn true [] p freshProperty ⟨[], []⟩
    let s2 := settleLoaderResolve true "a" (.jsNum 1) r.1 r.2.1
    mapGet s2.2.cacheMap "a" = some (.jsNum 1) ∧
    (mapGet s2.2.promiseMap "a").isSome = true := by
  decide

/-- C4 (amended): on the server a Pending Entry for a name exists from the
moment `load()` runs (registration happens synchronously, before
settlement) and it persists after the Cache Entry is populated — settlement
does not remove it; only the reload dispatch deletes the Pending Entry
(along with the Cache Entry). -/
theorem c4_pending_entry_lifecycle (n : String) (d v arg : JsValue) (ty : SuspenseType)
    (prop : Property) (tree : TreeState) (env : Env) (st : PaintState) :
    let p : CoordProps := ⟨n, d, ty⟩
    let r := loadFn true [] p prop tree
    let s2 := settleLoaderResolve true n v r.1 r.2.1
    let dsp := loadDispatchFn env p arg st
    (mapGet r.2.1.promiseMap n).isSome = true ∧
    (mapGet s2.2.cacheMap n = some v ∧ (mapGet s2.2.promiseMap n).isSome = true) ∧
    (mapGet dsp.1.tree.promiseMap n = none ∧ mapGet dsp.1.tree.cacheMap n = none) := by
  cases hpm : mapGet tree.promiseMap n with
  | some e =>
    simp [loadFn, hpm, settleLoaderResolve, applyLoadSettle, setPromiseState,
      mapGet_mapSet_self, loadDispatchFn, mapGet_mapDel_self]
  | none =>
    simp [loadFn, hpm, settleLoaderResolve, applyLoadSettle, setPromiseState,
      mapGet_mapSet_self, loadDispatchFn, mapGet_mapDel_self]

/-- C6: the reload dispatch synchronously clears the record's value and
initialized flag, records the argument as the override for the next load,
deletes both the Cache Entry and the Pending Entry for the name, and forces
a re-render; after a dispatch with no argument (`undefined`), the next
render's load invokes the external loader with the configured default
argument again (`property.loaderValue || loaderValue` with a cleared
override). -/
theorem c6_reload_dispatch_spec (env : Env) (p : CoordProps) (arg : JsValue)
    (st : PaintState) (hm : mapGet env.doc (idNameOf p.name) = none)
    (hcsr : st.isCSRFallback = false) :
    let r := loadDispatchFn env p arg st
    let st1 := (loadDispatchFn env p .jsUndefined st).1
    let r2 := paint env p st1
    (r.1.prop.value = .jsUndefined ∧ r.1.prop.isInit = false ∧ r.1.prop.loaderValue = arg ∧
      mapGet r.1.tree.cacheMap p.name = none ∧ mapGet r.1.tree.promiseMap p.name = none ∧
      r.2 = true) ∧
    (r2.2.1 = RenderOut.suspendedOut ∧
      r2.2.2 = some ⟨true, p.defaultLoaderValue, false, false, .pending⟩) := by
  cases hsrv : env.isServer with
  | true =>
    simp [loadDispatchFn, paint, tryCacheAdopt, loadFn, getJs, hsrv, hm, hcsr,
      mapGet_mapDel_self, truthyUndefined, jsOrUndefined]
  | false =>
    simp [loadDispatchFn, paint, tryCacheAdopt, loadFn, getJs, hsrv, hm, hcsr,
      mapGet_mapDel_self, truthyUndefined, jsOrUndefined]

/-- Witness for C6: a server coordinator named "a" with cached value 5,
reloaded with argument 2, and reloaded with no argument before the next
load, which then calls the loader with the default argument 9. -/
theorem c6_reload_dispatch_witness :
    let env : Env := ⟨true, [], []⟩
    let p : CoordProps := ⟨"a", .jsNum 9, .ssr⟩
    let st : PaintState :=
      ⟨⟨.jsNum 5, true, false, .jsUndefined⟩,
        ⟨[("a", .jsNum 5)], [("a", ⟨false, .fulfilled (.jsNum 5)⟩)]⟩, false, some false⟩
    let r := loadDispatchFn env p (.jsNum 2) st
    let st1 := (loadDispatchFn env p .jsUndefined st).1
    let r2 := paint env p st1
    (r.1.prop.value = .jsUndefined ∧ r.1.prop.isInit = false ∧ r.1.prop.loaderValue = .jsNum 2 ∧
      mapGet r.1.tree.cacheMap "a" = none ∧ mapGet r.1.tree.promiseMap "a" = none ∧
      r.2 = true) ∧
    (r2.2.1 = RenderOut.suspendedOut ∧
      r2.2.2 = some ⟨true, .jsNum 9, false, false, .pending⟩) :=
  c6_reload_dispatch_spec ⟨true, [], []⟩ ⟨"a", .jsNum 9, .ssr⟩ (.jsNum 2)
    ⟨⟨.jsNum 5, true, false, .jsUndefined⟩,
      ⟨[("a", .jsNum 5)], [("a", ⟨false, .fulfilled (.jsNum 5)⟩)]⟩, false, some false⟩
    rfl rfl

/-- Counterexample to C7 as stated: with "a" already in the process-wide
cache and a context delivering only "b", the merge is additive (both keys
survive) but the source-cache snapshot is `{ ...cacheMap }` of the *given*
cache only — it equals `[("b", 2)]`, not the merged cache, and misses "a". -/
theorem c7_src_snapshot_counterexample :
    let g : GlobalBridge := ⟨[], [("a", .jsNum 1)], []⟩
    let r := setSuspenseTreeContextFn g (some ([], [("b", .jsNum 2)]))
    r.gCacheMap = [("a", .jsNum 1), ("b", .jsNum 2)] ∧
    r.gCacheSrcMap = [("b", .jsNum 2)] ∧
    r.gCacheSrcMap ≠ r.gCacheMap ∧
    mapGet r.gCacheSrcMap "a" = none := by
  decide

/-- C7 (amended): `setSuspenseTreeContext` is a no-op without a context;
otherwise it merges the given cacheMap and promiseMap additively into the
process-wide default Tree Context (entries under other names are preserved)
and snapshots the *given* cache — not the merged one — as the source cache
that suppresses duplicate Data Marker emission. -/
theorem c7_set_tree_context_merge_spec (g : GlobalBridge)
    (pm : JsMap PendingEntry) (cm : JsMap JsValue) (k : String) :
    setSuspenseTreeContextFn g none = g ∧
    (setSuspenseTreeContextFn g (some (pm, cm))).gCacheSrcMap = cm ∧
    (mapGet cm k = none →
      mapGet (setSuspenseTreeContextFn g (some (pm, cm))).gCacheMap k = mapGet g.gCacheMap k) ∧
    (mapGet pm k = none →
      mapGet (setSuspenseTreeContextFn g (some (pm, cm))).gPromiseMap k = mapGet g.gPromiseMap k) := by
  refine ⟨rfl, rfl, ?_, ?_⟩
  · intro h
    exact mapGet_objAssign_none _ _ _ h
  · intro h
    exact mapGet_objAssign_none _ _ _ h

/-- Witness for C7: merging `[("b", 2)]` into a bridge holding "a" keeps
"a" in both tables and snapshots exactly the given cache. -/
theorem c7_set_tree_context_witness :
    let g : GlobalBridge := ⟨[("a", ⟨true, .pending⟩)], [("a", .jsNum 1)], []⟩
    let r := setSuspenseTreeContextFn g (some ([], [("b", .jsNum 2)]))
    r.gCacheSrcMap = [("b", .jsNum 2)] ∧
    mapGet r.gCacheMap "a" = mapGet g.gCacheMap "a" ∧
    mapGet r.gPromiseMap "a" = mapGet g.gPromiseMap "a" :=
  ⟨(c7_set_tree_context_merge_spec ⟨[("a", ⟨true, .pending⟩)], [("a", .jsNum 1)], []⟩
      [] [("b", .jsNum 2)] "a").2.1,
   (c7_set_tree_context_merge_spec ⟨[("a", ⟨true, .pending⟩)], [("a", .jsNum 1)], []⟩
      [] [("b", .jsNum 2)] "a").2.2.1 rfl,
   (c7_set_tree_context_merge_spec ⟨[("a", ⟨true, .pending⟩)], [("a", .jsNum 1)], []⟩
      [] [("b", .jsNum 2)] "a").2.2.2 rfl⟩

/-- Counterexample to C8 as stated: a coordinator of mode ssr (not the
streaming mode), rendering on the server with an empty source cache, emits
the Data Marker on its first content render — the emission condition
`(isSuspenseLoad || isServer) && !cacheSrcMap[name]` does not consult the
mode selector. -/
theorem c8_ssr_marker_emission_counterexample :
    let env : Env := ⟨true, [], []⟩
    let p : CoordProps := ⟨"n", .jsUndefined, .ssr⟩
    let r1 := paint env p (freshPaintState p ⟨[], []⟩)
    let s2 := settleLoaderResolve true "n" (.jsNum 3) r1.1.prop r1.1.tree
    let r2 := paint env p ⟨s2.1, s2.2, false, none⟩
    r1.2.1 = RenderOut.suspendedOut ∧
    r2.2.1 = RenderOut.contentOut (.jsNum 3) true := by
  decide

/-- C8 (amended): a Data Marker is emitted only on a content render whose
`isRequestData` latch is still unset, and only when the coordinator runs in
the initiating (server) context or its record was hydrated from a marker,
and only when the name is not truthily present in the source cache; every
content render leaves the latch disarmed (the mount effect), a disarmed
latch suppresses emission, and no render arms a latch that was not already
armed — so each wrapper mount emits at most once.  The mode selector plays
no part in the emission condition (see the ssr counterexample). -/
theorem c8_marker_latch_spec :
    (∀ (env : Env) (p : CoordProps) (st : PaintState) (v : JsValue),
      st.isRequestData = none →
      (paint env p st).2.1 = RenderOut.contentOut v true →
      (env.isServer = true ∨ (tryCacheAdopt p st.prop st.tree).isSuspenseLoad = true) ∧
      truthy (getJs env.cacheSrcMap p.name) = false) ∧
    (∀ (env : Env) (p : CoordProps) (st : PaintState) (v : JsValue) (m : Bool),
      st.isRequestData ≠ some true →
      (paint env p st).2.1 = RenderOut.contentOut v m →
      (paint env p st).1.isRequestData = some false) ∧
    (∀ (env : Env) (p : CoordProps) (st : PaintState) (v : JsValue) (m : Bool),
      st.isRequestData = some false →
      (paint env p st).2.1 = RenderOut.contentOut v m → m = false) ∧
    (∀ (env : Env) (p : CoordProps) (st : PaintState),
      (paint env p st).1.isRequestData = some true → st.isRequestData = some true) := by
  refine ⟨?_, ?_, ?_, ?_⟩
  · intro env p st v hl hc
    cases hf : st.isCSRFallback with
    | true => simp [paint, hf] at hc
    | false =>
      cases hinit : (tryCacheAdopt p st.prop st.tree).isInit with
      | false => simp [paint, hf, hinit] at hc
      | true =>
        simp [paint, hf, hinit, hl] at hc
        obtain ⟨hv, hb⟩ := hc
        exact ⟨hb.1.symm, hb.2⟩
  · intro env p st v m hl hc
    cases hf : st.isCSRFallback with
    | true => simp [paint, hf] at hc
    | false =>
      cases hinit : (tryCacheAdopt p st.prop st.tree).isInit with
      | false => simp [paint, hf, hinit] at hc
      | true =>
        cases hr : st.isRequestData with
        | none => simp [paint, hf, hinit, hr]
        | some b =>
          cases b with
          | true => exact absurd hr hl
          | false => simp [paint, hf, hinit, hr]
  · intro env p st v m hl hc
    cases hf : st.isCSRFallback with
    | true => simp [paint, hf] at hc
    | false =>
      cases hinit : (tryCacheAdopt p st.prop st.tree).isInit with
      | false => simp [paint, hf, hinit] at hc
      | true =>
        simp [paint, hf, hinit, hl] at hc
        exact hc.2
  · intro env p st hl
    cases hf : st.isCSRFallback with
    | true => simpa [paint, hf] using hl
    | false =>
      cases hinit : (tryCacheAdopt p st.prop st.tree).isInit with
      | false => simpa [paint, hf, hinit] using hl
      | true =>
        cases hr : st.isRequestData with
        | none => simp [paint, hf, hinit, hr] at hl
        | some b => simpa [paint, hf, hinit, hr] using hl

/-- Witness for C8: a client coordinator hydrated from a marker, with an
empty source cache, satisfies the emission conditions on its first content
render. -/
theorem c8_marker_latch_witness :
    let env : Env := ⟨false, [], []⟩
    let p : CoordProps := ⟨"n", .jsUndefined, .streaming⟩
    let st : PaintState := ⟨⟨.jsNum 3, true, true, .jsUndefined⟩, ⟨[], []⟩, false, none⟩
    (env.isServer = true ∨ (tryCacheAdopt p st.prop st.tree).isSuspenseLoad = true) ∧
    truthy (getJs env.cacheSrcMap p.name) = false :=
  c8_marker_latch_spec.1 ⟨false, [], []⟩ ⟨"n", .jsUndefined, .streaming⟩
    ⟨⟨.jsNum 3, true, true, .jsUndefined⟩, ⟨[], []⟩, false, none⟩ (.jsNum 3) rfl (by decide)

/-- Counterexample to C9 as stated: when the loader rejects, the deferred
computation returned by `load()` does not become rejected — `resolve` is
only wired to the fulfillment handler, so the outer promise stays pending
forever, while the rejection surfaces as an unhandled rejection of the
internal `loader(...).then(...)` promise. -/
theorem c9_rejection_not_propagated_counterexample :
    let r := loadSettleRun true "a" (.rejected (.jsStr "boom")) freshProperty ⟨[], []⟩
    r.2.2.1 = PromiseState.pending ∧
    r.2.2.1 ≠ PromiseState.rejected (.jsStr "boom") ∧
    r.2.2.2 = true ∧
    r.1 = freshProperty ∧ r.2.1 = ⟨[], []⟩ := by
  decide

/-- C9 (amended): the core does not catch a loader rejection; the failure
becomes an unhandled rejection of the internal derived computation, the
deferred computation produced by `load()` never settles (it stays pending,
in particular it is never rejected), and the coordinator's record and the
Cache Entry table are left unchanged by the failed load. -/
theorem c9_loader_rejection_spec (isSrv : Bool) (n : String) (e : JsValue)
    (prop : Property) (tree : TreeState) :
    loadSettleRun isSrv n (.rejected e) prop tree = (prop, tree, .pending, true) ∧
    ∀ e2, (loadSettleRun isSrv n (.rejected e) prop tree).2.2.1 ≠ PromiseState.rejected e2 := by
  refine ⟨rfl, ?_⟩
  intro e2 h
  simp [loadSettleRun, loaderBranchOuter, loaderBranchDerived, isUnhandledRejection] at h

/-- C10: a falsy cached value (0, the empty string, false, null, …) is not
adopted by the first-evaluation fast path — the adoption test is the cached
value's truthiness, not the key's presence — so the record stays
uninitialized and the render suspends into the load path again. -/
theorem c10_falsy_cache_not_adopted (env : Env) (p : CoordProps) (prop : Property)
    (tree : TreeState) (latch : Option Bool) (v : JsValue)
    (hinit : prop.isInit = false)
    (hv : mapGet tree.cacheMap p.name = some v)
    (hfalsy : truthy v = false) :
    tryCacheAdopt p prop tree = prop ∧
    (paint env p ⟨prop, tree, false, latch⟩).2.1 = RenderOut.suspendedOut := by
  have hadopt : tryCacheAdopt p prop tree = prop := by
    simp [tryCacheAdopt, getJs, hinit, hv, hfalsy]
  refine ⟨hadopt, ?_⟩
  simp [paint, hadopt, hinit]

/-- Witness for C10 at each of the four falsy cache values named by the
claim: 0, the empty string, false, and null. -/
theorem c10_falsy_cache_witness :
    (tryCacheAdopt ⟨"n", .jsUndefined, .streaming⟩ freshProperty ⟨[("n", .jsNum 0)], []⟩ =
        freshProperty ∧
      (paint ⟨true, [], []⟩ ⟨"n", .jsUndefined, .streaming⟩
        ⟨freshProperty, ⟨[("n", .jsNum 0)], []⟩, false, none⟩).2.1 = RenderOut.suspendedOut) ∧
    (tryCacheAdopt ⟨"n", .jsUndefined, .streaming⟩ freshProperty ⟨[("n", .jsStr "")], []⟩ =
        freshProperty ∧
      (paint ⟨true, [], []⟩ ⟨"n", .jsUndefined, .streaming⟩
        ⟨freshProperty, ⟨[("n", .jsStr "")], []⟩, false, none⟩).2.1 = RenderOut.suspendedOut) ∧
    (tryCacheAdopt ⟨"n", .jsUndefined, .streaming⟩ freshProperty ⟨[("n", .jsBool false)], []⟩ =
        freshProperty ∧
      (paint ⟨true, [], []⟩ ⟨"n", .jsUndefined, .streaming⟩
        ⟨freshProperty, ⟨[("n", .jsBool false)], []⟩, false, none⟩).2.1 =
        RenderOut.suspendedOut) ∧
    (tryCacheAdopt ⟨"n", .jsUndefined, .streaming⟩ freshProperty ⟨[("n", .jsNull)], []⟩ =
        freshProperty ∧
      (paint ⟨true, [], []⟩ ⟨"n", .jsUndefined, .streaming⟩
        ⟨freshProperty, ⟨[("n", .jsNull)], []⟩, false, none⟩).2.1 = RenderOut.suspendedOut) :=
  ⟨c10_falsy_cache_not_adopted ⟨true, [], []⟩ ⟨"n", .jsUndefined, .streaming⟩ freshProperty
      ⟨[("n", .jsNum 0)], []⟩ none (.jsNum 0) rfl (by decide) (by decide),
   c10_falsy_cache_not_adopted ⟨true, [], []⟩ ⟨"n", .jsUndefined, .streaming⟩ freshProperty
      ⟨[("n", .jsStr "")], []⟩ none (.jsStr "") rfl (by decide) (by decide),
   c10_falsy_cache_not_adopted ⟨true, [], []⟩ ⟨"n", .jsUndefined, .streaming⟩ freshProperty
      ⟨[("n", .jsBool false)], []⟩ none (.jsBool false) rfl (by decide) (by decide),
   c10_falsy_cache_not_adopted ⟨true, [], []⟩ ⟨"n", .jsUndefined, .streaming⟩ freshProperty
      ⟨[("n", .jsNull)], []⟩ none (.jsNull) rfl (by decide) (by decide)⟩

theorem mapGet_eq_none_of_no_key {α : Type} (m : JsMap α) (k : String)
    (h : ∀ kv ∈ m, kv.1 ≠ k) : mapGet m k = none := by
  induction m with
  | nil => rfl
  | cons kv rest ih =>
    have hk : ¬ kv.1 = k := h kv (by simp)
    simp only [mapGet, if_neg hk]
    exact ih (fun kv2 h2 => h kv2 (List.mem_cons_of_mem _ h2))

/-- C5: the collector of `getDataFromTree` (the variant taking a timeout),
run over a fresh scope: each round awaits the currently known Pending
Entries, restricted to the non-streamed ones when the engine streams, racing
the timeout timer; a settled wait loops again exactly when the set of known
Pending Entry names grew during the wait and stops otherwise (the code
compares key counts, which over the monotone registration timeline is
equivalent to name-set growth); when the timeout fires the loop exits at
once, and every entry that had been registered but was still unresolved at
that moment is present in the returned `promiseMap` while absent from the
returned `cacheMap`. -/
theorem c5_collector_loop_spec :
    (∀ (l : List Arrival),
      awaitedEntries false l = l ∧
      awaitedEntries true l = l.filter (fun a => !a.op.streaming)) ∧
    (∀ (timeline : List Arrival) (S : Bool) (T : Option Nat) (fuel t ta : Nat),
      raceRound T (settleTimeFrom t (awaitedEntries S (arrivedBy timeline t))) =
        RoundOutcome.settledAt ta →
      t ≤ ta ∧
      collectLoop timeline S T (fuel + 1) t (arrivedBy timeline t).length =
        (if promiseNamesAt timeline ta = promiseNamesAt timeline t then
          CollectExit.stableAt ta
         else collectLoop timeline S T fuel ta (arrivedBy timeline ta).length)) ∧
    (∀ (timeline : List Arrival) (S : Bool) (T : Option Nat) (fuel t len tm : Nat),
      raceRound T (settleTimeFrom t (awaitedEntries S (arrivedBy timeline t))) =
        RoundOutcome.timeoutAt tm →
      collectLoop timeline S T (fuel + 1) t len = CollectExit.timedOutAt tm) ∧
    (∀ (timeline : List Arrival) (tm : Nat) (a : Arrival),
      a ∈ timeline → a.arriveAt ≤ tm →
      (∀ r, a.op.resolveAt = some r → ¬ r ≤ tm) →
      a.name ∈ promiseNamesAt timeline tm ∧
      ((timeline.map (fun x => x.name)).Nodup →
        mapGet (cacheMapAt timeline tm) a.name = none)) := by
  refine ⟨?_, ?_, ?_, ?_⟩
  · intro l
    constructor
    · simp [awaitedEntries]
    · simp [awaitedEntries]
  · intro timeline S T fuel t ta hrace
    have hsrc : settleTimeFrom t (awaitedEntries S (arrivedBy timeline t)) = some ta :=
      raceRound_settled_src hrace
    have hle : t ≤ ta := settleTimeFrom_le hsrc
    refine ⟨hle, ?_⟩
    have hiff : ((arrivedBy timeline ta).length = (arrivedBy timeline t).length) ↔
        (promiseNamesAt timeline ta = promiseNamesAt timeline t) := by
      constructor
      · intro h
        rw [promiseNamesAt, promiseNamesAt, arrivedBy_eq_of_length timeline hle h]
      · intro h
        have := congrArg List.length h
        simpa [promiseNamesAt] using this
    simp only [collectLoop, hrace]
    rw [if_congr hiff rfl rfl]
  · intro timeline S T fuel t len tm hrace
    simp only [collectLoop, hrace]
  · intro timeline tm a hmem harr hunres
    constructor
    · have hin : a ∈ arrivedBy timeline tm := by
        simp [arrivedBy, List.mem_filter, hmem, harr]
      exact List.mem_map.mpr ⟨a, hin, rfl⟩
    · intro hnodup
      apply mapGet_eq_none_of_no_key
      intro kv hkv
      rw [cacheMapAt] at hkv
      obtain ⟨b, hbf, hkveq⟩ := List.mem_map.mp hkv
      obtain ⟨hbmem, hbpred⟩ := List.mem_filter.mp hbf
      intro heq
      have hname : b.name = a.name := by
        rw [← hkveq] at heq
        exact heq
      have hab : b = a := List.inj_on_of_nodup_map hnodup hbmem hmem hname
      subst hab
      cases hres : b.op.resolveAt with
      | none => simp [hres] at hbpred
      | some r =>
        simp [hres] at hbpred
        exact hunres r hres hbpred

/-- Witness for C5: a streamed-filter instance; a settled round over a
timeline where "b" is revealed at time 3 (the loop iterates exactly on name
growth); a timed-out round over a timeline whose "slow" entry never
resolves, racing a 4ms timer; and the unresolved "slow" entry still
registered as Pending and absent from the cache at the timeout. -/
theorem c5_collector_loop_witness :
    (awaitedEntries true
        [⟨"x", 0, ⟨true, none, .jsUndefined⟩⟩, ⟨"y", 0, ⟨false, some 1, .jsNum 1⟩⟩] =
      List.filter (fun a => !a.op.streaming)
        [⟨"x", 0, ⟨true, none, .jsUndefined⟩⟩, ⟨"y", 0, ⟨false, some 1, .jsNum 1⟩⟩]) ∧
    (0 ≤ 2 ∧
      collectLoop [⟨"a", 0, ⟨false, some 2, .jsNum 1⟩⟩, ⟨"b", 3, ⟨false, some 4, .jsNum 2⟩⟩]
          false (some 10) (1 + 1) 0
          (arrivedBy [⟨"a", 0, ⟨false, some 2, .jsNum 1⟩⟩, ⟨"b", 3, ⟨false, some 4, .jsNum 2⟩⟩] 0).length =
        (if promiseNamesAt [⟨"a", 0, ⟨false, some 2, .jsNum 1⟩⟩, ⟨"b", 3, ⟨false, some 4, .jsNum 2⟩⟩] 2 =
            promiseNamesAt [⟨"a", 0, ⟨false, some 2, .jsNum 1⟩⟩, ⟨"b", 3, ⟨false, some 4, .jsNum 2⟩⟩] 0 then
          CollectExit.stableAt 2
         else
          collectLoop [⟨"a", 0, ⟨false, some 2, .jsNum 1⟩⟩, ⟨"b", 3, ⟨false, some 4, .jsNum 2⟩⟩]
            false (some 10) 1 2
            (arrivedBy [⟨"a", 0, ⟨false, some 2, .jsNum 1⟩⟩, ⟨"b", 3, ⟨false, some 4, .jsNum 2⟩⟩] 2).length)) ∧
    (collectLoop [⟨"list", 0, ⟨false, some 5, .jsNum 1⟩⟩, ⟨"slow", 0, ⟨false, none, .jsUndefined⟩⟩]
        false (some 4) (3 + 1) 0 2 = CollectExit.timedOutAt 4) ∧
    ("slow" ∈ promiseNamesAt
        [⟨"list", 0, ⟨false, some 5, .jsNum 1⟩⟩, ⟨"slow", 0, ⟨false, none, .jsUndefined⟩⟩] 4 ∧
      mapGet (cacheMapAt
        [⟨"list", 0, ⟨false, some 5, .jsNum 1⟩⟩, ⟨"slow", 0, ⟨false, none, .jsUndefined⟩⟩] 4)
        "slow" = none) :=
  ⟨(c5_collector_loop_spec.1
      [⟨"x", 0, ⟨true, none, .jsUndefined⟩⟩, ⟨"y", 0, ⟨false, some 1, .jsNum 1⟩⟩]).2,
   c5_collector_loop_spec.2.1
      [⟨"a", 0, ⟨false, some 2, .jsNum 1⟩⟩, ⟨"b", 3, ⟨false, some 4, .jsNum 2⟩⟩]
      false (some 10) 1 0 2 (by decide),
   c5_collector_loop_spec.2.2.1
      [⟨"list", 0, ⟨false, some 5, .jsNum 1⟩⟩, ⟨"slow", 0, ⟨false, none, .jsUndefined⟩⟩]
      false (some 4) 3 0 2 4 (by decide),
   (c5_collector_loop_spec.2.2.2
      [⟨"list", 0, ⟨false, some 5, .jsNum 1⟩⟩, ⟨"slow", 0, ⟨false, none, .jsUndefined⟩⟩]
      4 ⟨"slow", 0, ⟨false, none, .jsUndefined⟩⟩ (by decide) (by decide)
      (fun r hr => by simp at hr)).1,
   ((c5_collector_loop_spec.2.2.2
      [⟨"list", 0, ⟨false, some 5, .jsNum 1⟩⟩, ⟨"slow", 0, ⟨false, none, .jsUndefined⟩⟩]
      4 ⟨"slow", 0, ⟨false, none, .jsUndefined⟩⟩ (by decide) (by decide)
      (fun r hr => by simp at hr)).2 (by decide))⟩
